import Mathlib

/-!
Verification of the attendance-computation engine of the coupang-admin-dashboard
repository.  The TypeScript sources are shallowly embedded: cells are `String`s,
JS arrays are `List`s, optional arrays are `Option (List _)`, JS numbers holding
attendance rates are modelled as exact rationals `ℚ`, and the timestamped query
cache is modelled as explicit state passing.  Each definition mirrors one
function of the source (file and function named in its doc comment).
-/

namespace Coupang

/-- Separator characters of the cell tokenizer (the regex `[、，,;／/\n]+` of
`tokenizeCell` in the gas transform and dashboard modules). -/
def isSepChar (c : Char) : Bool :=
  c == '、' || c == '，' || c == ',' || c == ';' || c == '／' || c == '/' || c == '\n'

/-- Characters removed by the JavaScript `String.prototype.trim` (WhiteSpace and
LineTerminator code points). -/
def isJsWhitespaceChar (c : Char) : Bool :=
  c == ' ' || c == '\t' || c == '\n' || c == '\r' || c.toNat == 0x0B || c.toNat == 0x0C ||
  c.toNat == 0xA0 || c.toNat == 0x1680 || (0x2000 ≤ c.toNat && c.toNat ≤ 0x200A) ||
  c.toNat == 0x2028 || c.toNat == 0x2029 || c.toNat == 0x202F || c.toNat == 0x205F ||
  c.toNat == 0x3000 || c.toNat == 0xFEFF

/-- JS `s.trim()` on the character list of a string. -/
def trimChars (l : List Char) : List Char :=
  ((l.dropWhile isJsWhitespaceChar).reverse.dropWhile isJsWhitespaceChar).reverse

/-- JS `s.trim()` as a `String → String` function. -/
def trimS (s : String) : String := String.mk (trimChars s.data)

/-- Splitting a character list at every separator character.  Splitting at each
separator (instead of at runs) can only produce extra empty pieces, which the
tokenizer drops, so this matches the source regex `split(/[、，,;／/\n]+/)`. -/
def splitOnSeps : List Char → List Char → List (List Char)
  | [], acc => [acc.reverse]
  | c :: cs, acc =>
    if isSepChar c then acc.reverse :: splitOnSeps cs []
    else splitOnSeps cs (c :: acc)

/-- `tokenizeCell` (identical in `part_002` and `part_006`): trim the raw cell,
split on separators, trim every piece and drop the empty ones. -/
def tokenizeCell (raw : String) : List String :=
  let s := trimChars raw.data
  if s.isEmpty then []
  else (((splitOnSeps s []).map trimChars).filter (fun t => !t.isEmpty)).map String.mk

/-- `buildExcludeForAttRateSet` of `part_006`: leave tokens excluded from the
"should attend" denominator (the spec's EXCLUDE_FOR_RATE_DENOMINATOR). -/
def buildExcludeForAttRateSet : List String :=
  ["例", "例假", "例假日", "例休", "休", "休假", "休假日", "國", "離", "調倉", "調任", "轉正"]

/-- `buildExcludeFromAbsSet` of `part_006`: tokens forcing a cell to count as
attended (the spec's EXCLUDE_FROM_ABSENCE). -/
def buildExcludeFromAbsSet : List String :=
  ["例", "例假", "例假日", "例休", "休", "休假", "休假日", "國", "離", "調倉", "調任", "轉正",
   "未", "特"]

/-- Base token set of `buildExcludeSet` in `part_002`. -/
def buildExcludeSetBase : List String :=
  ["休", "休假", "公休", "特休", "病假", "事假", "喪假", "婚假", "產假", "育嬰", "OFF", "off",
   "離"]

/-- `buildExcludeSet` of `part_002`: the base set extended with trimmed,
non-empty caller-supplied tokens (a JS `Set`; only membership is used, so a
duplicate-keeping list is an equivalent model). -/
def buildExcludeSet (list : List String) : List String :=
  buildExcludeSetBase ++ (list.map trimS).filter (fun v => v != "")

/-- `isShouldAttendCell` (identical in `part_002` and `part_006`): an empty cell
always counts as should-attend; a non-empty cell counts unless some token is in
the exclusion set.  The source tokenizes the trimmed text; `tokenizeCell`
re-trims, so tokenizing `raw` is the same. -/
def isShouldAttendCell (raw : String) (exclude : List String) : Bool :=
  if (trimChars raw.data).isEmpty then true
  else !((tokenizeCell raw).any (fun t => decide (t ∈ exclude)))

/-- `ALNUM_RE` of `part_006`: the character class `[A-Za-z0-9]`. -/
def isAlnumAsciiChar (c : Char) : Bool :=
  ('A' ≤ c && c ≤ 'Z') || ('a' ≤ c && c ≤ 'z') || ('0' ≤ c && c ≤ '9')

/-- `ALNUM_RE.test t` : `t` is non-empty and purely ASCII alphanumeric. -/
def alnumOnly (t : String) : Bool := !t.data.isEmpty && t.data.all isAlnumAsciiChar

/-- `HAS_CJK_RE.test t` : `t` contains a CJK character (U+4E00 – U+9FFF). -/
def hasCJKChar (t : String) : Bool :=
  t.data.any (fun c => 0x4E00 ≤ c.toNat && c.toNat ≤ 0x9FFF)

/-- `isAutoAttendCell` of `part_006`: a non-empty cell is automatically counted
attended when some token is in the absence-exclusion set, or when it is a single
token that is purely ASCII alphanumeric with no CJK character. -/
def isAutoAttendCell (raw : String) (excludeAbs : List String) : Bool :=
  if (trimChars raw.data).isEmpty then false
  else
    let tokens := tokenizeCell raw
    if tokens.any (fun t => decide (t ∈ excludeAbs)) then true
    else if tokens.length == 1 && alnumOnly (tokens.getD 0 "") &&
        !hasCJKChar (tokens.getD 0 "") then true
    else false

/-- The `AttendanceSummary.status` values. -/
inductive AttStatus where
  | normal
  | low
  | abnormal
  deriving DecidableEq, Repr

/-- `statusFromRate` (identical in `part_002`, `part_004` and `part_006`).
JS numbers are modelled as exact rationals; `0.9` and `0.75` are exactly
representable. -/
def statusFromRate (rate : ℚ) : AttStatus :=
  if (0.9 : ℚ) ≤ rate then .normal
  else if (0.75 : ℚ) ≤ rate then .low
  else .abnormal

/-- `AttendanceSummary` of the data model. -/
structure AttendanceSummary where
  rate : ℚ
  attended : ℕ
  expected : ℕ
  status : AttStatus
  deriving DecidableEq, Repr

/-- `GasRow` of `gasApi.ts`: raw cell texts plus optional per-cell colour and
backend-attendance arrays. -/
structure GasRow where
  v : List String
  bg : Option (List String) := none
  fc : Option (List String) := none
  att : Option (List Int) := none
  deriving DecidableEq, Repr

/-- `GasPayload` of `gasApi.ts` (the fields the verified components read). -/
structure GasPayload where
  headers : List String
  headersISO : Option (List String) := none
  rows : List GasRow
  dateCols : Option (List ℕ) := none
  deriving DecidableEq, Repr

/-- `GasTransformOptions` of `part_002`.  The JS fields are optional; an absent
field behaves as the default recorded here. -/
structure GasTransformOptions where
  disableAttendance : Bool := false
  sheetName : String := ""
  excludeForAttRate : List String := []
  deriving DecidableEq, Repr

/-- A normalized row (`GasRecordRow` of `part_002`): the header-keyed cell map
plus the carried-through side channels and the computed attendance fields. -/
structure GasRecordRow where
  id : String
  cells : List (String × String)
  bg : Option (List String) := none
  fc : Option (List String) := none
  att : Option (List Int) := none
  attendance : Option AttendanceSummary := none
  attendanceRate : Option ℚ := none
  deriving DecidableEq, Repr

/-- Result shape of `gasPayloadToRows`. -/
structure GasTable where
  headers : List String
  rows : List GasRecordRow
  deriving DecidableEq, Repr

/-- Association-list lookup, the model of reading a JS object property /
`Map.get` (keys are unique because insertion replaces in place). -/
def lookupAssoc {α : Type} : List (String × α) → String → Option α
  | [], _ => none
  | (k, v) :: t, key => if k = key then some v else lookupAssoc t key

/-- Association-list update, the model of JS object property assignment /
`Map.set`: replace in place when the key exists, else append. -/
def setAssoc {α : Type} : List (String × α) → String → α → List (String × α)
  | [], key, v => [(key, v)]
  | (k, w) :: t, key, v =>
    if k = key then (key, v) :: t else (k, w) :: setAssoc t key v

/-- `hay.includes(needle)` helpers: prefix test on character lists. -/
def hasPrefixChars : List Char → List Char → Bool
  | _, [] => true
  | [], _ :: _ => false
  | a :: as, b :: bs => a == b && hasPrefixChars as bs

/-- `hay.includes(needle)` : some suffix of `hay` starts with `needle`. -/
def containsChars : List Char → List Char → Bool
  | [], needle => needle.isEmpty
  | c :: rest, needle => hasPrefixChars (c :: rest) needle || containsChars rest needle

/-- JS `hay.includes(needle)` on strings. -/
def strContainsSub (hay needle : String) : Bool := containsChars hay.data needle.data

/-- ASCII-lowering, the model of the case-insensitive `/^name$/i` test. -/
def lowerAscii (s : String) : String := String.mk (s.data.map Char.toLower)

/-- Exact-match name-column labels of `findNameIndex` in `part_002`. -/
def nameExactLabels : List String := ["姓名", "Name", "name", "員工姓名", "中文姓名"]

/-- `findNameIndex` of `part_002`: first a pass of exact label matches over the
trimmed headers, then a substring/regex fallback pass. -/
def findNameIndex (headers : List String) : Option ℕ :=
  match (List.range headers.length).find? (fun i =>
      let h := trimS (headers.getD i "")
      !(h == "") && decide (h ∈ nameExactLabels)) with
  | some i => some i
  | none =>
    (List.range headers.length).find? (fun i =>
      let h := trimS (headers.getD i "")
      !(h == "") && (strContainsSub h "姓名" || lowerAscii h == "name"))

/-- The explicit invisible-character class of `cleanForBlankCheck`
(U+00A0, U+200B - U+200F, U+202A - U+202E, U+2060, U+2066 - U+2069, U+FEFF). -/
def isExplicitInvisibleChar (c : Char) : Bool :=
  let n := c.toNat
  n == 0xA0 || (0x200B ≤ n && n ≤ 0x200F) || (0x202A ≤ n && n ≤ 0x202E) ||
  n == 0x2060 || (0x2066 ≤ n && n ≤ 0x2069) || n == 0xFEFF

/-- The Unicode `Cf` (format) category used by the `\p{Cf}` erasure of
`cleanForBlankCheck`. -/
def isFormatCategoryChar (c : Char) : Bool :=
  let n := c.toNat
  n == 0xAD || (0x600 ≤ n && n ≤ 0x605) || n == 0x61C || n == 0x6DD || n == 0x70F ||
  n == 0x890 || n == 0x891 || n == 0x8E2 || n == 0x180E || (0x200B ≤ n && n ≤ 0x200F) ||
  (0x202A ≤ n && n ≤ 0x202E) || (0x2060 ≤ n && n ≤ 0x2064) || (0x2066 ≤ n && n ≤ 0x206F) ||
  n == 0xFEFF || (0xFFF9 ≤ n && n ≤ 0xFFFB) || n == 0x110BD || n == 0x110CD ||
  (0x13430 ≤ n && n ≤ 0x1343F) || (0x1BCA0 ≤ n && n ≤ 0x1BCA3) ||
  (0x1D173 ≤ n && n ≤ 0x1D17A) || n == 0xE0001 || (0xE0020 ≤ n && n ≤ 0xE007F)

/-- `cleanForBlankCheck` of `gasPayloadToRows`: the source applies three global
erasing replaces (explicit invisibles, `\p{Cf}`, `\s+`) and then trims; since
every step only deletes characters, one filter over the union is the same and
the final trim is a no-op. -/
def cleanForBlankCheck (s : String) : String :=
  String.mk (s.data.filter (fun c =>
    !(isExplicitInvisibleChar c || isFormatCategoryChar c || isJsWhitespaceChar c)))

/-- `isBlankRow` of `gasPayloadToRows`: every cell at a header index cleans to
the empty string (an out-of-range cell reads as `''`). -/
def isBlankRow (headers : List String) (r : GasRow) : Bool :=
  (List.range headers.length).all (fun i => cleanForBlankCheck (r.v.getD i "") == "")

/-- One step of the `calcAttendance` loop over the date columns of one row. -/
def calcStep (headers : List String) (v : List String) (att : List Int)
    (exclude : List String) (sa : ℕ × ℕ) (ci : ℕ) : ℕ × ℕ :=
  if (trimChars (headers.getD ci "").data).isEmpty then sa
  else if v.length ≤ ci then sa
  else if isShouldAttendCell (v.getD ci "") exclude then
    (sa.1 + 1, if att.getD ci 0 ≠ 0 then sa.2 + 1 else sa.2)
  else sa

/-- `calcAttendance` of `part_002`: per-row attendance summary, computed only
for schedule sheets (name contains `班表`) with non-empty headers, date columns
and backend `att` array. -/
def calcAttendance (headers : List String) (dateCols : Option (List ℕ)) (row : GasRow)
    (o : GasTransformOptions) : Option AttendanceSummary :=
  if !(strContainsSub (trimS o.sheetName) "班表") then none else
  match dateCols with
  | none => none
  | some dc =>
    if dc.isEmpty then none else
    if headers.isEmpty then none else
    match row.att with
    | none => none
    | some att =>
      if att.isEmpty then none else
      let exclude := buildExcludeSet o.excludeForAttRate
      let sa := dc.foldl (calcStep headers row.v att exclude) (0, 0)
      let rate : ℚ := if sa.1 = 0 then 0 else (sa.2 : ℚ) / (sa.1 : ℚ)
      some ⟨rate, sa.2, sa.1, statusFromRate rate⟩

/-- Building one normalized record in `gasPayloadToRows`: header-keyed cells
(empty headers addressed as `col_<i+1>`), carried-through side channels, the
attendance fields, and the canonical `姓名` mirror of the name column. -/
def toRecord (headers : List String) (nameIdx : Option ℕ) (p : GasPayload)
    (o : GasTransformOptions) (idx : ℕ) (r : GasRow) : GasRecordRow :=
  let baseCells := (List.range headers.length).foldl (fun acc i =>
    setAssoc acc (if headers.getD i "" ≠ "" then headers.getD i ""
      else "col_" ++ toString (i + 1)) (r.v.getD i "")) []
  let cells := match nameIdx with
    | some ni =>
      match r.v.get? ni with
      | some s => setAssoc baseCells "姓名" s
      | none => baseCells
    | none => baseCells
  let att? := if o.disableAttendance then none else calcAttendance headers p.dateCols r o
  ⟨"gas_" ++ toString idx, cells, r.bg, r.fc, r.att, att?, att?.map (·.rate)⟩

/-- `gasPayloadToRows` of `part_002`: drop blank rows, then build one record per
surviving row, ids assigned in emission order. -/
def gasPayloadToRows (p : GasPayload) (o : GasTransformOptions) : GasTable :=
  let headers := p.headers
  let nameIdx := findNameIndex headers
  let kept := p.rows.filter (fun r => !(isBlankRow headers r))
  ⟨headers, kept.enum.map (fun pr => toRecord headers nameIdx p o pr.1 pr.2)⟩

/-- Reading a key of a normalized record (`(r as any)[key]` on a `GasRecordRow`). -/
def getCellValue (r : GasRecordRow) (k : String) : Option String := lookupAssoc r.cells k

/-- `getNameFromRow` of `part_006`: `name` key, else `姓名` key, trimmed, with
`（未命名）` as the fallback for a blank name. -/
def getNameFromRow (r : GasRecordRow) : String :=
  let v := match getCellValue r "name" with
    | some s => s
    | none => (getCellValue r "姓名").getD ""
  let t := trimS v
  if t == "" then "（未命名）" else t

/-- `isActualAttendCell` of `part_006`: auto-attend first, else the backend
`_att` flag of the row at the column index (absent or empty array counts as
not attended; an out-of-range index reads as a falsy value). -/
def isActualAttendCell (colIndex : ℕ) (row : GasRecordRow) (cellValue : String)
    (excludeAbs : List String) : Bool :=
  if isAutoAttendCell cellValue excludeAbs then true
  else match row.att with
    | some att => if 0 < att.length then decide (att.getD colIndex 0 ≠ 0) else false
    | none => false

/-- The date identity used by `refreshWorstAttendance` for one date column:
`headersISO[ci]` if non-blank, else the header text, else the column index. -/
def dateIdentity (headersISO : List String) (hk : String) (ci : ℕ) : String :=
  if trimS (headersISO.getD ci "") ≠ "" then trimS (headersISO.getD ci "")
  else if trimS hk ≠ "" then trimS hk
  else toString ci

/-- The per-(row, date-column) contributions of one row inside the per-employee
loop of `refreshWorstAttendance`: for every date column with a non-blank header
whose cell passes the should-attend test, the date identity together with the
actual-attend verdict. -/
def cellPairs (headers headersISO : List String) (dateCols : List ℕ)
    (exclude excludeAbs : List String) (row : GasRecordRow) : List (String × Bool) :=
  dateCols.filterMap (fun ci =>
    let hk := headers.getD ci ""
    if trimS hk == "" then none
    else
      let cellValue := (getCellValue row hk).getD ""
      if !(isShouldAttendCell cellValue exclude) then none
      else some (dateIdentity headersISO hk ci, isActualAttendCell ci row cellValue excludeAbs))

/-- JS `Set.add`: append the element when it is not already present. -/
def insertSet (l : List String) (s : String) : List String :=
  if s ∈ l then l else l ++ [s]

/-- One step of the per-employee accumulation: always add the date identity to
the should-attend set, and also to the attended set when the cell was attended. -/
def personSetsStep (acc : List String × List String) (p : String × Bool) :
    List String × List String :=
  (insertSet acc.1 p.1, if p.2 then insertSet acc.2 p.1 else acc.2)

/-- The `expectedSet` / `attendedSet` pair built by `refreshWorstAttendance` for
one employee from all of that employee's (row, date-column) contributions. -/
def personSets (pairs : List (String × Bool)) : List String × List String :=
  pairs.foldl personSetsStep ([], [])

/-- An entry of the ranked attendance list (`{ id, name, summary }`). -/
structure AttEntry where
  id : String
  name : String
  summary : AttendanceSummary
  deriving DecidableEq, Repr

/-- All (row, date-column) contributions of one employee: the employee's rows in
source order, each contributing its `cellPairs`. -/
def personPairsFor (headers headersISO : List String) (dateCols : List ℕ)
    (rows : List GasRecordRow) (nm : String) : List (String × Bool) :=
  ((rows.filter (fun r => getNameFromRow r == nm)).map
    (cellPairs headers headersISO dateCols buildExcludeForAttRateSet
      buildExcludeFromAbsSet)).flatten

/-- The summary pushed by `refreshWorstAttendance` for one employee, or `none`
when the deduplicated should-attend set is empty (`if (!expected) return`). -/
def buildAttEntry (headers headersISO : List String) (dateCols : List ℕ)
    (rows : List GasRecordRow) (nm : String) : Option AttEntry :=
  let sets := personSets (personPairsFor headers headersISO dateCols rows nm)
  if sets.1.length = 0 then none
  else
    let rate : ℚ := (sets.2.length : ℚ) / (sets.1.length : ℚ)
    some ⟨"att_" ++ nm, nm, ⟨rate, sets.2.length, sets.1.length, statusFromRate rate⟩⟩

/-- The employee names in first-seen order (`Map` key insertion order of the
`byName` grouping; every row has a non-empty name by `getNameFromRow`). -/
def namesOf (rows : List GasRecordRow) : List String :=
  rows.foldl (fun acc r => insertSet acc (getNameFromRow r)) []

/-- Ascending-by-rate order of the final `list.sort` comparator. -/
def rateLE (a b : AttEntry) : Prop := a.summary.rate ≤ b.summary.rate

instance : DecidableRel rateLE := fun a b =>
  inferInstanceAs (Decidable (a.summary.rate ≤ b.summary.rate))

/-- The `attAll` list computed by `refreshWorstAttendance` in `part_006`:
group rows by employee name, deduplicate dates per employee, drop employees
with an empty should-attend set, and sort ascending by rate (insertion sort
models the stable JS sort). -/
def attAllModel (headers headersISO : List String) (dateCols : List ℕ)
    (rows : List GasRecordRow) : List AttEntry :=
  List.insertionSort rateLE
    ((namesOf rows).filterMap (buildAttEntry headers headersISO dateCols rows))

/-- `attWorst5` of `part_006`: `attAll.slice(0, 5)`. -/
def attWorst5Model (headers headersISO : List String) (dateCols : List ℕ)
    (rows : List GasRecordRow) : List AttEntry :=
  (attAllModel headers headersISO dateCols rows).take 5

/-- `attBest5` of `part_006`: `attAll.slice(max(0, len - 5)).reverse()`. -/
def attBest5Model (headers headersISO : List String) (dateCols : List ℕ)
    (rows : List GasRecordRow) : List AttEntry :=
  let l := attAllModel headers headersISO dateCols rows
  ((l.drop (l.length - 5)).reverse)

/-- A cache entry of `gasApi.ts` (`{ ts, value }`). -/
structure CacheEntry where
  ts : ℕ
  value : GasPayload
  deriving DecidableEq, Repr

/-- The mutable state used by `gasQuerySheet`: the `QUERY_CACHE` map and the key
set of the `QUERY_INFLIGHT` map. -/
structure QueryState where
  cache : List (String × CacheEntry)
  inflight : List String
  deriving DecidableEq, Repr

/-- `QUERY_CACHE_MS` of `gasApi.ts`: the 2-minute sheet-query TTL. -/
def QUERY_CACHE_MS : ℕ := 2 * 60000

/-- How one `gasQuerySheet` call concluded: a fresh cache hit, joining an
in-flight request, or performing its own fetch (whose result propagates). -/
inductive QueryOutcome where
  | hit (p : GasPayload)
  | joined
  | fetched (r : Except String GasPayload)

/-- One complete `gasQuerySheet` call as a state transition.  `now` is the
current time in ms, `key` the composite cache key, and `fetch` the result the
underlying network fetch would produce if issued.  On a fresh fetch the
registered in-flight entry is removed again by the `finally`, so the net
in-flight set is unchanged; success stores `{ ts: now, value }`, failure stores
nothing. -/
def gasQuerySheetModel (st : QueryState) (now : ℕ) (key : String)
    (fetch : Except String GasPayload) : QueryOutcome × QueryState :=
  let fresh : QueryOutcome × QueryState :=
    if st.inflight.contains key then (.joined, st)
    else
      match fetch with
      | .ok p => (.fetched (.ok p), ⟨setAssoc st.cache key ⟨now, p⟩, st.inflight⟩)
      | .error e => (.fetched (.error e), st)
  match lookupAssoc st.cache key with
  | some hit => if now - hit.ts < QUERY_CACHE_MS then (.hit hit.value, st) else fresh
  | none => fresh

/-! ### Helper lemmas -/

theorem mem_insertSet {l : List String} {s x : String} :
    x ∈ insertSet l s ↔ x ∈ l ∨ x = s := by
  by_cases h : s ∈ l
  · rw [insertSet, if_pos h]
    constructor
    · exact Or.inl
    · rintro (hx | rfl)
      · exact hx
      · exact h
  · rw [insertSet, if_neg h]
    simp

theorem nodup_insertSet {l : List String} {s : String} (h : l.Nodup) :
    (insertSet l s).Nodup := by
  by_cases hs : s ∈ l
  · rw [insertSet, if_pos hs]; exact h
  · rw [insertSet, if_neg hs]
    exact List.Nodup.append h (List.nodup_singleton s) (by simpa using hs)

theorem lookupAssoc_setAssoc {α : Type} (l : List (String × α)) (k : String) (v : α) :
    lookupAssoc (setAssoc l k v) k = some v := by
  induction l with
  | nil => simp [setAssoc, lookupAssoc]
  | cons p t ih =>
    obtain ⟨pk, pv⟩ := p
    by_cases h : pk = k
    · simp [setAssoc, lookupAssoc, h]
    · simp [setAssoc, lookupAssoc, h, ih]

theorem personSets_fold_mem1 (pairs : List (String × Bool)) :
    ∀ (acc : List String × List String) (x : String),
      x ∈ (pairs.foldl personSetsStep acc).1 ↔ x ∈ acc.1 ∨ ∃ b, (x, b) ∈ pairs := by
  induction pairs with
  | nil => intro acc x; simp
  | cons p t ih =>
    intro acc x
    rw [List.foldl_cons, ih]
    simp only [personSetsStep, mem_insertSet, List.mem_cons]
    constructor
    · rintro ((hx | rfl) | ⟨b, hb⟩)
      · exact Or.inl hx
      · exact Or.inr ⟨p.2, Or.inl rfl⟩
      · exact Or.inr ⟨b, Or.inr hb⟩
    · rintro (hx | ⟨b, (rfl | hb)⟩)
      · exact Or.inl (Or.inl hx)
      · exact Or.inl (Or.inr rfl)
      · exact Or.inr ⟨b, hb⟩

theorem personSets_fold_mem2 (pairs : List (String × Bool)) :
    ∀ (acc : List String × List String) (x : String),
      x ∈ (pairs.foldl personSetsStep acc).2 ↔ x ∈ acc.2 ∨ (x, true) ∈ pairs := by
  induction pairs with
  | nil => intro acc x; simp
  | cons p t ih =>
    intro acc x
    rw [List.foldl_cons, ih]
    obtain ⟨ps, pb⟩ := p
    cases pb with
    | true =>
      simp only [personSetsStep, mem_insertSet, List.mem_cons, if_true]
      constructor
      · rintro ((hx | rfl) | hb)
        · exact Or.inl hx
        · exact Or.inr (Or.inl rfl)
        · exact Or.inr (Or.inr hb)
      · rintro (hx | (heq | hb))
        · exact Or.inl (Or.inl hx)
        · rw [Prod.ext_iff] at heq
          exact Or.inl (Or.inr heq.1)
        · exact Or.inr hb
    | false =>
      simp only [personSetsStep, List.mem_cons]
      rw [if_neg (by simp)]
      constructor
      · rintro (hx | hb)
        · exact Or.inl hx
        · exact Or.inr (Or.inr hb)
      · rintro (hx | (heq | hb))
        · exact Or.inl hx
        · rw [Prod.ext_iff] at heq
          exact absurd heq.2 (by simp)
        · exact Or.inr hb

theorem personSets_fold_nodup (pairs : List (String × Bool)) :
    ∀ acc : List String × List String, acc.1.Nodup → acc.2.Nodup →
      (pairs.foldl personSetsStep acc).1.Nodup ∧ (pairs.foldl personSetsStep acc).2.Nodup := by
  induction pairs with
  | nil => intro acc h1 h2; exact ⟨h1, h2⟩
  | cons p t ih =>
    intro acc h1 h2
    rw [List.foldl_cons]
    refine ih _ (nodup_insertSet h1) ?_
    dsimp [personSetsStep]
    split
    · exact nodup_insertSet h2
    · exact h2

theorem personSets_expected_card (pairs : List (String × Bool)) :
    (personSets pairs).1.length = ((pairs.map Prod.fst).toFinset).card := by
  have hn := (personSets_fold_nodup pairs ([], []) (by simp) (by simp)).1
  have hm := personSets_fold_mem1 pairs ([], [])
  rw [personSets, ← List.toFinset_card_of_nodup hn]
  congr 1
  ext x
  simp only [List.mem_toFinset, hm x, List.mem_map]
  constructor
  · rintro (h | ⟨b, hb⟩)
    · exact absurd h (List.not_mem_nil x)
    · exact ⟨(x, b), hb, rfl⟩
  · rintro ⟨⟨a, b⟩, hab, rfl⟩
    exact Or.inr ⟨b, hab⟩

theorem personSets_attended_card (pairs : List (String × Bool)) :
    (personSets pairs).2.length =
      (((pairs.filter (fun p => p.2)).map Prod.fst).toFinset).card := by
  have hn := (personSets_fold_nodup pairs ([], []) (by simp) (by simp)).2
  have hm := personSets_fold_mem2 pairs ([], [])
  rw [personSets, ← List.toFinset_card_of_nodup hn]
  congr 1
  ext x
  simp only [List.mem_toFinset, hm x, List.mem_map, List.mem_filter]
  constructor
  · rintro (h | h)
    · exact absurd h (List.not_mem_nil x)
    · exact ⟨(x, true), ⟨h, rfl⟩, rfl⟩
  · rintro ⟨⟨a, b⟩, ⟨hab, hb⟩, rfl⟩
    have : b = true := by simpa using hb
    subst this
    exact Or.inr hab

theorem personSets_att_le (pairs : List (String × Bool)) :
    (personSets pairs).2.length ≤ (personSets pairs).1.length := by
  rw [personSets_expected_card, personSets_attended_card]
  apply Finset.card_le_card
  intro x hx
  simp only [List.mem_toFinset, List.mem_map, List.mem_filter] at hx ⊢
  obtain ⟨⟨a, b⟩, ⟨hab, _⟩, rfl⟩ := hx
  exact ⟨(a, b), hab, rfl⟩

theorem calcFold_le (headers : List String) (v : List String) (att : List Int)
    (exclude : List String) :
    ∀ (dc : List ℕ) (sa : ℕ × ℕ), sa.2 ≤ sa.1 →
      (dc.foldl (calcStep headers v att exclude) sa).2 ≤
        (dc.foldl (calcStep headers v att exclude) sa).1 := by
  intro dc
  induction dc with
  | nil => intro sa h; exact h
  | cons ci t ih =>
    intro sa h
    rw [List.foldl_cons]
    apply ih
    unfold calcStep
    split_ifs <;> (try dsimp) <;> omega

/-! ### Claim theorems -/

/-- C1 (counterexample): the cell `"休/加班"` has the token `"加班"`, which is
not in the exclusion set, yet `isShouldAttendCell` returns `false` — refuting
the claim that a non-empty cell is should-attend exactly when at least one of
its tokens is absent from the set (and its scenario that `"休/加班"` is
should-attend). -/
theorem isShouldAttendCell_cex :
    ("加班" ∈ tokenizeCell "休/加班" ∧ "加班" ∉ buildExcludeForAttRateSet)
    ∧ isShouldAttendCell "休/加班" buildExcludeForAttRateSet = false := by
  refine ⟨⟨?_, ?_⟩, ?_⟩ <;> decide

/-- C1 (amended): the should-attend test returns true when the trimmed cell is
empty, and for a non-empty cell it returns true exactly when none of its tokens
is in the exclusion set; in particular both `"休"` and `"休/加班"` are not
should-attend under the default set. -/
theorem isShouldAttendCell_spec :
    (∀ (raw : String) (exclude : List String),
      isShouldAttendCell raw exclude = true ↔
        (trimChars raw.data = [] ∨ ∀ t ∈ tokenizeCell raw, t ∉ exclude))
    ∧ isShouldAttendCell "休" buildExcludeForAttRateSet = false
    ∧ isShouldAttendCell "休/加班" buildExcludeForAttRateSet = false := by
  refine ⟨?_, by decide, by decide⟩
  intro raw exclude
  unfold isShouldAttendCell
  by_cases h : (trimChars raw.data).isEmpty = true
  · rw [if_pos h]
    simp [List.isEmpty_iff.mp h]
  · rw [if_neg h]
    have hne : trimChars raw.data ≠ [] := by
      intro he
      exact h (by simp [he])
    simp only [Bool.not_eq_true', List.any_eq_false, decide_eq_true_eq]
    exact (or_iff_right hne).symm

/-- C4: the auto-attend test returns true exactly when some token of the cell
is in the absence-exclusion set, or the cell is a single non-empty token of
pure ASCII letters and digits containing no CJK character; `"A1"` is
auto-attend and the empty cell is not. -/
theorem isAutoAttendCell_spec :
    (∀ (raw : String) (excludeAbs : List String),
      isAutoAttendCell raw excludeAbs = true ↔
        ((∃ t ∈ tokenizeCell raw, t ∈ excludeAbs) ∨
         (∃ t, tokenizeCell raw = [t] ∧ t.data ≠ [] ∧
           (∀ c ∈ t.data, isAlnumAsciiChar c = true) ∧
           (¬ ∃ c ∈ t.data, 0x4E00 ≤ c.toNat ∧ c.toNat ≤ 0x9FFF))))
    ∧ isAutoAttendCell "A1" buildExcludeFromAbsSet = true
    ∧ isAutoAttendCell "" buildExcludeFromAbsSet = false := by
  refine ⟨?_, by decide, by decide⟩
  intro raw excludeAbs
  unfold isAutoAttendCell
  by_cases h : (trimChars raw.data).isEmpty = true
  · have htok : tokenizeCell raw = [] := by
      unfold tokenizeCell
      rw [if_pos h]
    rw [if_pos h, htok]
    simp
  · rw [if_neg h]
    by_cases hany : (tokenizeCell raw).any (fun t => decide (t ∈ excludeAbs)) = true
    · rw [if_pos hany]
      simp only [List.any_eq_true, decide_eq_true_eq] at hany
      simp [hany]
    · rw [if_neg hany]
      simp only [List.any_eq_true, decide_eq_true_eq] at hany
      push_neg at hany
      constructor
      · intro hc
        right
        split_ifs at hc with hone
        · simp only [Bool.and_eq_true, beq_iff_eq, Bool.not_eq_true'] at hone
          obtain ⟨⟨hlen, halnum⟩, hcjk⟩ := hone
          obtain ⟨t, ht⟩ := List.length_eq_one.mp hlen
          refine ⟨t, ht, ?_, ?_, ?_⟩
          · have := halnum
            rw [ht] at this
            simp only [List.getD, List.get?] at this
            unfold alnumOnly at this
            simp only [Bool.and_eq_true, Bool.not_eq_true', List.isEmpty_eq_false] at this
            exact this.1
          · intro c hc'
            have := halnum
            rw [ht] at this
            unfold alnumOnly at this
            simp only [Bool.and_eq_true, List.all_eq_true] at this
            exact this.2 c (by simpa using hc')
          · intro ⟨c, hc', hle, hge⟩
            have hc2 := hcjk
            rw [ht] at hc2
            unfold hasCJKChar at hc2
            rw [List.any_eq_false] at hc2
            have hc3 := hc2 c (by simpa using hc')
            simp only [Bool.and_eq_true, decide_eq_true_eq, not_and, not_le] at hc3
            omega
      · rintro (⟨t, ht, hmem⟩ | ⟨t, ht, hne, halnum, hcjk⟩)
        · exact absurd hmem (hany t ht)
        · rw [ht]
          have h1 : alnumOnly t = true := by
            unfold alnumOnly
            simp only [Bool.and_eq_true, Bool.not_eq_true', List.isEmpty_eq_false,
              List.all_eq_true]
            exact ⟨hne, halnum⟩
          have h2 : hasCJKChar t = false := by
            unfold hasCJKChar
            rw [List.any_eq_false]
            intro c hc' hcon
            rw [Bool.and_eq_true, decide_eq_true_eq, decide_eq_true_eq] at hcon
            exact hcjk ⟨c, hc', hcon.1, hcon.2⟩
          simp [h1, h2]

/-- C3: the actual-attend test passes exactly when the auto-attend test passes
or the row carries a non-empty backend `att` array whose entry at the column
index is truthy; the cell `"9:00-18:00"` is attended with `att = [1]`, and not
attended with `att = [0]` or with no `att` array. -/
theorem isActualAttendCell_spec :
    (∀ (ci : ℕ) (row : GasRecordRow) (cell : String) (ex : List String),
      isActualAttendCell ci row cell ex = true ↔
        (isAutoAttendCell cell ex = true ∨
         ∃ att, row.att = some att ∧ att ≠ [] ∧ att.getD ci 0 ≠ 0))
    ∧ isActualAttendCell 0 ⟨"r", [], none, none, some [1], none, none⟩ "9:00-18:00"
        buildExcludeFromAbsSet = true
    ∧ isActualAttendCell 0 ⟨"r", [], none, none, some [0], none, none⟩ "9:00-18:00"
        buildExcludeFromAbsSet = false
    ∧ isActualAttendCell 0 ⟨"r", [], none, none, none, none, none⟩ "9:00-18:00"
        buildExcludeFromAbsSet = false := by
  refine ⟨?_, by decide, by decide, by decide⟩
  intro ci row cell ex
  unfold isActualAttendCell
  by_cases h : isAutoAttendCell cell ex = true
  · simp [h]
  · rw [if_neg h]
    cases hatt : row.att with
    | none => simp [h, hatt]
    | some att =>
      dsimp only
      by_cases hl : 0 < att.length
      · rw [if_pos hl]
        simp only [decide_eq_true_eq, h, Bool.false_eq_true, false_or]
        constructor
        · intro hne
          exact ⟨att, rfl, List.length_pos.mp hl, hne⟩
        · rintro ⟨a, ha, _, hne⟩
          cases ha
          exact hne
      · rw [if_neg hl]
        constructor
        · intro hfalse
          exact absurd hfalse (by decide)
        · rintro (hauto | ⟨a, ha, hne, _⟩)
          · exact absurd hauto h
          · cases ha
            exact absurd (List.length_pos.mpr hne) hl

/-- C5: the status thresholds — `normal` exactly when rate ≥ 0.90, `low`
exactly when 0.75 ≤ rate < 0.90, `abnormal` exactly when rate < 0.75; the
boundary rates 0.90 and 0.75 give `normal` and `low`. -/
theorem statusFromRate_spec :
    (∀ r : ℚ,
      (statusFromRate r = .normal ↔ (0.9 : ℚ) ≤ r)
      ∧ (statusFromRate r = .low ↔ (0.75 : ℚ) ≤ r ∧ r < (0.9 : ℚ))
      ∧ (statusFromRate r = .abnormal ↔ r < (0.75 : ℚ)))
    ∧ statusFromRate (0.9 : ℚ) = .normal
    ∧ statusFromRate (0.75 : ℚ) = .low := by
  refine ⟨?_, by norm_num [statusFromRate], by norm_num [statusFromRate]⟩
  intro r
  unfold statusFromRate
  split_ifs with h1 h2
  · exact ⟨iff_of_true rfl h1,
      iff_of_false (by decide)
        (fun hc => absurd h1 (not_le.mpr hc.2)),
      iff_of_false (by decide)
        (not_lt.mpr (le_trans (by norm_num) h1))⟩
  · exact ⟨iff_of_false (by decide) h1,
      iff_of_true rfl ⟨h2, not_le.mp h1⟩,
      iff_of_false (by decide) (not_lt.mpr h2)⟩
  · exact ⟨iff_of_false (by decide) h1,
      iff_of_false (by decide) (fun hc => h2 hc.1),
      iff_of_true rfl (not_le.mp h2)⟩

/-- Shared arithmetic facts about a rate `attended / expected` guarded by
`expected = 0`. -/
theorem rate_div_props (attended expected : ℕ) (hle : attended ≤ expected)
    (hne : expected ≠ 0) :
    0 ≤ (attended : ℚ) / (expected : ℚ) ∧ (attended : ℚ) / (expected : ℚ) ≤ 1 := by
  have hpos : (0 : ℚ) < (expected : ℚ) := by
    exact_mod_cast Nat.pos_of_ne_zero hne
  constructor
  · exact div_nonneg (Nat.cast_nonneg _) (le_of_lt hpos)
  · rw [div_le_one hpos]
    exact_mod_cast hle

/-- C6: every attendance summary produced by the per-row normalizer path
(`calcAttendance`) or by the per-employee aggregation path (`attAllModel`)
satisfies `attended ≤ expected`, has `rate = attended / expected` when
`expected > 0` and `rate = 0` when `expected = 0`, and hence `0 ≤ rate ≤ 1`. -/
theorem attendance_rate_invariants :
    (∀ (headers : List String) (dateCols : Option (List ℕ)) (row : GasRow)
       (o : GasTransformOptions) (s : AttendanceSummary),
      calcAttendance headers dateCols row o = some s →
        s.attended ≤ s.expected
        ∧ (s.expected = 0 → s.rate = 0)
        ∧ (s.expected ≠ 0 → s.rate = (s.attended : ℚ) / (s.expected : ℚ))
        ∧ 0 ≤ s.rate ∧ s.rate ≤ 1)
    ∧ (∀ (headers headersISO : List String) (dateCols : List ℕ)
         (rows : List GasRecordRow) (e : AttEntry),
        e ∈ attAllModel headers headersISO dateCols rows →
          e.summary.attended ≤ e.summary.expected
          ∧ (e.summary.expected = 0 → e.summary.rate = 0)
          ∧ (e.summary.expected ≠ 0 →
              e.summary.rate = (e.summary.attended : ℚ) / (e.summary.expected : ℚ))
          ∧ 0 ≤ e.summary.rate ∧ e.summary.rate ≤ 1) := by
  constructor
  · intro headers dateCols row o s h
    unfold calcAttendance at h
    split at h
    · exact absurd h (by simp)
    split at h
    · exact absurd h (by simp)
    split at h
    · exact absurd h (by simp)
    split at h
    · exact absurd h (by simp)
    split at h
    · exact absurd h (by simp)
    split at h
    · exact absurd h (by simp)
    rename_i hsheet dcOpt dc hdcne hheadne attOpt att hatt hattne
    rw [Option.some.injEq] at h
    subst h
    dsimp only
    have hle :=
      calcFold_le headers row.v att (buildExcludeSet o.excludeForAttRate) dc (0, 0)
        (by omega)
    by_cases he : (dc.foldl
        (calcStep headers row.v att (buildExcludeSet o.excludeForAttRate)) (0, 0)).1 = 0
    · refine ⟨hle, fun _ => by rw [if_pos he], fun h0 => absurd he h0, ?_, ?_⟩
      · rw [if_pos he]
      · rw [if_pos he]; norm_num
    · have hp := rate_div_props _ _ hle he
      refine ⟨hle, fun h0 => absurd h0 he, fun _ => by rw [if_neg he], ?_, ?_⟩
      · rw [if_neg he]; exact hp.1
      · rw [if_neg he]; exact hp.2
  · intro headers headersISO dateCols rows e he
    rw [attAllModel] at he
    rw [(List.perm_insertionSort rateLE _).mem_iff] at he
    rw [List.mem_filterMap] at he
    obtain ⟨nm, _, hb⟩ := he
    simp only [buildAttEntry] at hb
    split at hb
    · exact absurd hb (by simp)
    · rename_i hne
      rw [Option.some.injEq] at hb
      subst hb
      dsimp only
      have hle := personSets_att_le (personPairsFor headers headersISO dateCols rows nm)
      have hp := rate_div_props _ _ hle hne
      exact ⟨hle, fun h0 => absurd h0 hne, fun _ => rfl, hp.1, hp.2⟩

/-- C7 (counterexample): a raw row whose cells beyond the header count are
non-empty is still dropped — here headers `["A"]` and row `["", "X"]`: the cell
`"X"` does not clean to empty, yet the normalized output is empty, refuting the
claim that a row is excluded exactly when every one of its cells cleans to
empty. -/
theorem gasPayloadToRows_blank_cex :
    (gasPayloadToRows ⟨["A"], none, [⟨["", "X"], none, none, none⟩], none⟩
        ⟨false, "", []⟩).rows = []
    ∧ "X" ∈ (⟨["", "X"], none, none, none⟩ : GasRow).v
    ∧ cleanForBlankCheck "X" ≠ "" := by
  refine ⟨?_, ?_, ?_⟩ <;> decide

/-- C7 (amended): a raw row is excluded from the normalized output exactly when
every cell at a column index below the header count cleans (invisible and
whitespace characters stripped) to the empty string; cells beyond the header
count are ignored by the blank-row check. -/
theorem gasPayloadToRows_blank_spec :
    (∀ (p : GasPayload) (o : GasTransformOptions),
      ((gasPayloadToRows p o).rows).length =
        p.rows.countP (fun r => !(isBlankRow p.headers r)))
    ∧ (∀ (headers : List String) (r : GasRow),
      isBlankRow headers r = true ↔
        ∀ i, i < headers.length → cleanForBlankCheck (r.v.getD i "") = "") := by
  constructor
  · intro p o
    unfold gasPayloadToRows
    dsimp only
    rw [List.length_map, List.enum_length, List.countP_eq_length_filter]
  · intro headers r
    unfold isBlankRow
    rw [List.all_eq_true]
    constructor
    · intro h i hi
      have := h i (List.mem_range.mpr hi)
      exact beq_iff_eq.mp this
    · intro h i hi
      exact beq_iff_eq.mpr (h i (List.mem_range.mp hi))

/-- C8 (counterexample): with attendance enabled and a schedule-sheet name
(`班表`), a row without a backend `att` array is emitted with `_attendance`
unset — refuting the claim that those two conditions alone guarantee the
attendance fields are populated. -/
theorem gasPayloadToRows_attendance_cex :
    ((gasPayloadToRows ⟨["A"], none, [⟨["x"], none, none, none⟩], some [0]⟩
        ⟨false, "班表", []⟩).rows.map (fun r => r.attendance)) = [none]
    ∧ (⟨false, "班表", []⟩ : GasTransformOptions).disableAttendance = false
    ∧ strContainsSub (trimS (⟨false, "班表", []⟩ : GasTransformOptions).sheetName)
        "班表" = true := by
  refine ⟨?_, ?_, ?_⟩ <;> decide

/-- C8 (amended): when attendance is not disabled, the sheet name contains the
schedule marker `班表`, the payload carries non-empty headers and a non-empty
`dateCols` list, and the row carries a non-empty backend `att` array, every
emitted row has its `_attendance` and `_attendanceRate` fields populated. -/
theorem gasPayloadToRows_attendance_spec :
    ∀ (p : GasPayload) (o : GasTransformOptions) (e : GasRecordRow),
      e ∈ (gasPayloadToRows p o).rows →
      o.disableAttendance = false →
      strContainsSub (trimS o.sheetName) "班表" = true →
      p.headers ≠ [] →
      (∃ dc, p.dateCols = some dc ∧ dc ≠ []) →
      (∃ al, e.att = some al ∧ al ≠ []) →
      e.attendance.isSome = true ∧ e.attendanceRate.isSome = true := by
  intro p o e hmem hdis hsheet hhead hdc hal
  obtain ⟨dc, hdc, hdcne⟩ := hdc
  obtain ⟨al, hal, halne⟩ := hal
  unfold gasPayloadToRows at hmem
  dsimp only at hmem
  rw [List.mem_map] at hmem
  obtain ⟨⟨i, r⟩, _, heq⟩ := hmem
  subst heq
  simp only [toRecord] at hal
  have h1 : dc.isEmpty = false := by
    cases dc
    · exact absurd rfl hdcne
    · rfl
  have h2 : p.headers.isEmpty = false := by
    cases hp : p.headers
    · exact absurd hp hhead
    · rfl
  have h3 : al.isEmpty = false := by
    cases al
    · exact absurd rfl halne
    · rfl
  have hcalc : (calcAttendance p.headers p.dateCols r o).isSome = true := by
    unfold calcAttendance
    rw [hsheet, hdc, hal]
    simp [h1, h2, h3]
  obtain ⟨s, hs⟩ := Option.isSome_iff_exists.mp hcalc
  constructor
  · simp [toRecord, hdis, hs]
  · simp [toRecord, hdis, hs]

/-- C2: in the per-employee aggregation, every entry of the ranked list has
`expected` equal to the number of distinct date identities over all passing
(row, date-column) pairs of that employee, and `attended` equal to the number
of distinct date identities of the pairs that also pass the actual-attend test
— so a date shared by two of the employee's rows is counted once, not twice. -/
theorem attendance_cross_row_dedup :
    ∀ (headers headersISO : List String) (dateCols : List ℕ) (rows : List GasRecordRow)
      (e : AttEntry), e ∈ attAllModel headers headersISO dateCols rows →
      e.summary.expected =
        ((personPairsFor headers headersISO dateCols rows e.name).map Prod.fst).toFinset.card
      ∧ e.summary.attended =
        (((personPairsFor headers headersISO dateCols rows e.name).filter
            (fun p => p.2)).map Prod.fst).toFinset.card := by
  intro headers headersISO dateCols rows e he
  rw [attAllModel] at he
  rw [(List.perm_insertionSort rateLE _).mem_iff] at he
  rw [List.mem_filterMap] at he
  obtain ⟨nm, _, hb⟩ := he
  simp only [buildAttEntry] at hb
  split at hb
  · exact absurd hb (by simp)
  · rw [Option.some.injEq] at hb
    subst hb
    dsimp only
    exact ⟨(personSets_expected_card _).symm ▸ rfl, (personSets_attended_card _).symm ▸ rfl⟩

/-- C10: an employee whose deduplicated should-attend date set is empty is
omitted from the ranked per-employee list entirely, and therefore can appear
neither in the worst-5 nor in the best-5 selection. -/
theorem attAll_omits_zero_expected :
    ∀ (headers headersISO : List String) (dateCols : List ℕ) (rows : List GasRecordRow)
      (nm : String),
      ((personPairsFor headers headersISO dateCols rows nm).map Prod.fst).toFinset.card = 0 →
      (∀ e ∈ attAllModel headers headersISO dateCols rows, e.name ≠ nm)
      ∧ (∀ e ∈ attWorst5Model headers headersISO dateCols rows, e.name ≠ nm)
      ∧ (∀ e ∈ attBest5Model headers headersISO dateCols rows, e.name ≠ nm) := by
  intro headers headersISO dateCols rows nm hzero
  have hmain : ∀ e ∈ attAllModel headers headersISO dateCols rows, e.name ≠ nm := by
    intro e he hname
    rw [attAllModel] at he
    rw [(List.perm_insertionSort rateLE _).mem_iff] at he
    rw [List.mem_filterMap] at he
    obtain ⟨nm2, _, hb⟩ := he
    simp only [buildAttEntry] at hb
    split at hb
    · exact absurd hb (by simp)
    · rename_i hne
      rw [Option.some.injEq] at hb
      subst hb
      dsimp only at hname
      subst hname
      rw [personSets_expected_card] at hne
      exact hne hzero
  refine ⟨hmain, ?_, ?_⟩
  · intro e he
    unfold attWorst5Model at he
    exact hmain e (List.mem_of_mem_take he)
  · intro e he
    unfold attBest5Model at he
    rw [List.mem_reverse] at he
    exact hmain e (List.mem_of_mem_drop he)

/-- C9: a `gasQuerySheet` call with no pending in-flight request for its key
returns the cached payload without fetching when the cached entry is younger
than the 2-minute TTL; with no entry or an expired entry it performs the fetch
and propagates its result, a successful fetch is stored in the cache, a failed
fetch leaves the cache unchanged for the key, and in both outcomes no in-flight
entry for the key remains. -/
theorem gasQuerySheet_cache_spec :
    ∀ (st : QueryState) (now : ℕ) (key : String) (fetch : Except String GasPayload),
      st.inflight.contains key = false →
      ((∀ en, lookupAssoc st.cache key = some en → now - en.ts < QUERY_CACHE_MS →
          gasQuerySheetModel st now key fetch = (.hit en.value, st))
       ∧ ((lookupAssoc st.cache key = none ∨
            ∃ en, lookupAssoc st.cache key = some en ∧ QUERY_CACHE_MS ≤ now - en.ts) →
          (gasQuerySheetModel st now key fetch).1 = .fetched fetch
          ∧ (∀ p, fetch = .ok p →
              lookupAssoc (gasQuerySheetModel st now key fetch).2.cache key = some ⟨now, p⟩)
          ∧ (∀ err, fetch = .error err →
              (gasQuerySheetModel st now key fetch).2.cache = st.cache)
          ∧ (gasQuerySheetModel st now key fetch).2.inflight.contains key = false)) := by
  intro st now key fetch hinf
  constructor
  · intro en hen hfresh
    unfold gasQuerySheetModel
    rw [hen]
    dsimp only
    rw [if_pos hfresh]
  · intro hmiss
    have hfreshform : gasQuerySheetModel st now key fetch =
        (match fetch with
         | .ok p =>
            (.fetched (.ok p), ⟨setAssoc st.cache key ⟨now, p⟩, st.inflight⟩)
         | .error e => (.fetched (.error e), st)) := by
      unfold gasQuerySheetModel
      rcases hmiss with hnone | ⟨en, hen, hexp⟩
      · rw [hnone]
        dsimp only
        rw [hinf]
        simp
      · rw [hen]
        dsimp only
        rw [if_neg (not_lt.mpr hexp), hinf]
        simp
    rw [hfreshform]
    cases fetch with
    | ok p =>
      refine ⟨rfl, ?_, ?_, ?_⟩
      · intro q hq
        cases hq
        exact lookupAssoc_setAssoc _ _ _
      · intro err herr
        cases herr
      · exact hinf
    | error err =>
      refine ⟨rfl, ?_, ?_, ?_⟩
      · intro q hq
        cases hq
      · intro e2 he2
        rfl
      · exact hinf

/-! ### Witnesses

The `rate` fields below are written as the unreduced division terms the code
produces, because `Rat.mul` (hence `/` on `ℚ`) is `@[irreducible]`; definitional
unfolding then identifies each concrete aggregate with its literal. -/

/-- Concrete rows for the C2 witness: one employee in two rows marking the same
date column. -/
def c2Rows : List GasRecordRow :=
  [⟨"gas_0", [("姓名", "王"), ("1月1日", "A1")], none, none, none, none, none⟩,
   ⟨"gas_1", [("姓名", "王"), ("1月1日", "A1")], none, none, none, none, none⟩]

/-- The single ranked entry produced from `c2Rows`. -/
def c2Entry : AttEntry :=
  ⟨"att_王", "王",
    ⟨((1 : ℕ) : ℚ) / ((1 : ℕ) : ℚ), 1, 1, statusFromRate (((1 : ℕ) : ℚ) / ((1 : ℕ) : ℚ))⟩⟩

/-- Witness for C2: an employee appearing in two rows that mark the same date
column is counted with `expected = attended = 1`, the date being deduplicated. -/
theorem attendance_cross_row_dedup_witness :
    c2Entry ∈ attAllModel ["姓名", "1月1日"] ["", "2024-01-01"] [1] c2Rows
    ∧ c2Entry.summary.expected =
        ((personPairsFor ["姓名", "1月1日"] ["", "2024-01-01"] [1] c2Rows
          c2Entry.name).map Prod.fst).toFinset.card
    ∧ c2Entry.summary.attended =
        (((personPairsFor ["姓名", "1月1日"] ["", "2024-01-01"] [1] c2Rows
            c2Entry.name).filter (fun p => p.2)).map Prod.fst).toFinset.card := by
  have hmem : c2Entry ∈ attAllModel ["姓名", "1月1日"] ["", "2024-01-01"] [1] c2Rows := by
    show c2Entry ∈ [c2Entry]
    exact List.mem_singleton_self _
  have h := attendance_cross_row_dedup ["姓名", "1月1日"] ["", "2024-01-01"] [1] c2Rows
    c2Entry hmem
  exact ⟨hmem, h.1, h.2⟩

/-- The single ranked entry of the one-row aggregation used by the C6 witness. -/
def c6Entry : AttEntry :=
  ⟨"att_王", "王",
    ⟨((1 : ℕ) : ℚ) / ((1 : ℕ) : ℚ), 1, 1, statusFromRate (((1 : ℕ) : ℚ) / ((1 : ℕ) : ℚ))⟩⟩

/-- Witness for C6 at concrete summaries of both computation paths. -/
theorem attendance_rate_invariants_witness :
    ((0 : ℕ) ≤ 0 ∧ ((0 : ℕ) = 0 → (0 : ℚ) = 0)
      ∧ ((0 : ℕ) ≠ 0 → (0 : ℚ) = ((0 : ℕ) : ℚ) / ((0 : ℕ) : ℚ))
      ∧ (0 : ℚ) ≤ (0 : ℚ) ∧ (0 : ℚ) ≤ 1)
    ∧ (c6Entry.summary.attended ≤ c6Entry.summary.expected
      ∧ (c6Entry.summary.expected = 0 → c6Entry.summary.rate = 0)
      ∧ (c6Entry.summary.expected ≠ 0 →
          c6Entry.summary.rate =
            (c6Entry.summary.attended : ℚ) / (c6Entry.summary.expected : ℚ))
      ∧ 0 ≤ c6Entry.summary.rate ∧ c6Entry.summary.rate ≤ 1) := by
  constructor
  · exact attendance_rate_invariants.1 ["姓名", "D"] (some [1])
      ⟨["王", "休"], none, none, some [0, 1]⟩ ⟨false, "班表", []⟩
      ⟨0, 0, 0, statusFromRate 0⟩ rfl
  · exact attendance_rate_invariants.2 ["姓名", "1月1日"] ["", "2024-01-01"] [1]
      [⟨"gas_0", [("姓名", "王"), ("1月1日", "A1")], none, none, none, none, none⟩]
      c6Entry (by
        show c6Entry ∈ [c6Entry]
        exact List.mem_singleton_self _)

/-- The normalized record emitted for the C8 witness payload. -/
def c8Rec : GasRecordRow :=
  ⟨"gas_0", [("姓名", "王")], none, none, some [1],
    some ⟨((1 : ℕ) : ℚ) / ((1 : ℕ) : ℚ), 1, 1,
      statusFromRate (((1 : ℕ) : ℚ) / ((1 : ℕ) : ℚ))⟩,
    some (((1 : ℕ) : ℚ) / ((1 : ℕ) : ℚ))⟩

/-- Witness for C8: a schedule-sheet payload with headers, date columns and a
backend `att` array yields a row with both attendance fields populated. -/
theorem gasPayloadToRows_attendance_witness :
    c8Rec ∈ (gasPayloadToRows ⟨["姓名"], none, [⟨["王"], none, none, some [1]⟩], some [0]⟩
        ⟨false, "班表", []⟩).rows
    ∧ c8Rec.attendance.isSome = true ∧ c8Rec.attendanceRate.isSome = true := by
  have hmem : c8Rec ∈
      (gasPayloadToRows ⟨["姓名"], none, [⟨["王"], none, none, some [1]⟩], some [0]⟩
        ⟨false, "班表", []⟩).rows := by
    show c8Rec ∈ [c8Rec]
    exact List.mem_singleton_self _
  have h := gasPayloadToRows_attendance_spec
    ⟨["姓名"], none, [⟨["王"], none, none, some [1]⟩], some [0]⟩ ⟨false, "班表", []⟩
    c8Rec hmem rfl (by decide) (by decide) ⟨[0], rfl, by decide⟩ ⟨[1], rfl, by decide⟩
  exact ⟨hmem, h.1, h.2⟩

/-- Witness for C9: a fresh call on an empty cache performs the fetch, stores
the payload under the key, and leaves no in-flight entry. -/
theorem gasQuerySheet_cache_spec_witness :
    (gasQuerySheetModel ⟨[], []⟩ 5 "k" (.ok ⟨["h"], none, [], none⟩)).1 =
        .fetched (.ok ⟨["h"], none, [], none⟩)
    ∧ lookupAssoc (gasQuerySheetModel ⟨[], []⟩ 5 "k"
        (.ok ⟨["h"], none, [], none⟩)).2.cache "k" = some ⟨5, ⟨["h"], none, [], none⟩⟩
    ∧ (gasQuerySheetModel ⟨[], []⟩ 5 "k"
        (.ok ⟨["h"], none, [], none⟩)).2.inflight.contains "k" = false := by
  have h := (gasQuerySheet_cache_spec ⟨[], []⟩ 5 "k" (.ok ⟨["h"], none, [], none⟩) rfl).2
    (Or.inl rfl)
  exact ⟨h.1, h.2.1 _ rfl, h.2.2.2⟩

/-- Concrete rows for the C10 witness: employee `李` marked `休` on the only
date column (empty should-attend set) next to a normally attending `王`. -/
def c10Rows : List GasRecordRow :=
  [⟨"gas_0", [("姓名", "李"), ("D", "休")], none, none, none, none, none⟩,
   ⟨"gas_1", [("姓名", "王"), ("D", "A1")], none, none, none, none, none⟩]

/-- The sole ranked entry produced from `c10Rows`. -/
def c10Entry : AttEntry :=
  ⟨"att_王", "王",
    ⟨((1 : ℕ) : ℚ) / ((1 : ℕ) : ℚ), 1, 1, statusFromRate (((1 : ℕ) : ℚ) / ((1 : ℕ) : ℚ))⟩⟩

/-- Witness for C10: with an empty should-attend set, `李` is omitted — the
sole ranked entry is `王`. -/
theorem attAll_omits_zero_expected_witness : c10Entry.name ≠ "李" := by
  exact (attAll_omits_zero_expected ["姓名", "D"] ["", ""] [1] c10Rows "李"
    (by decide)).1 c10Entry (by
      show c10Entry ∈ [c10Entry]
      exact List.mem_singleton_self _)

/-- Witness for C1 instantiating the characterization at the cell `"加班"`. -/
theorem isShouldAttendCell_spec_witness :
    isShouldAttendCell "加班" buildExcludeForAttRateSet = true ↔
      (trimChars "加班".data = [] ∨
        ∀ t ∈ tokenizeCell "加班", t ∉ buildExcludeForAttRateSet) :=
  isShouldAttendCell_spec.1 "加班" buildExcludeForAttRateSet

/-- Witness for C3 instantiating the characterization at the backend-flag
scenario. -/
theorem isActualAttendCell_spec_witness :
    isActualAttendCell 0 ⟨"r", [], none, none, some [1], none, none⟩ "9:00-18:00"
        buildExcludeFromAbsSet = true ↔
      (isAutoAttendCell "9:00-18:00" buildExcludeFromAbsSet = true ∨
        ∃ att, (⟨"r", [], none, none, some [1], none, none⟩ : GasRecordRow).att = some att
          ∧ att ≠ [] ∧ att.getD 0 0 ≠ 0) :=
  isActualAttendCell_spec.1 0 ⟨"r", [], none, none, some [1], none, none⟩ "9:00-18:00"
    buildExcludeFromAbsSet

/-- Witness for C4 instantiating the characterization at the cell `"A1"`. -/
theorem isAutoAttendCell_spec_witness :
    isAutoAttendCell "A1" buildExcludeFromAbsSet = true ↔
      ((∃ t ∈ tokenizeCell "A1", t ∈ buildExcludeFromAbsSet) ∨
       (∃ t, tokenizeCell "A1" = [t] ∧ t.data ≠ [] ∧
         (∀ c ∈ t.data, isAlnumAsciiChar c = true) ∧
         (¬ ∃ c ∈ t.data, 0x4E00 ≤ c.toNat ∧ c.toNat ≤ 0x9FFF))) :=
  isAutoAttendCell_spec.1 "A1" buildExcludeFromAbsSet

/-- Witness for C5 instantiating the threshold characterization at rate 0.8. -/
theorem statusFromRate_spec_witness :
    (statusFromRate (0.8 : ℚ) = .normal ↔ (0.9 : ℚ) ≤ (0.8 : ℚ))
    ∧ (statusFromRate (0.8 : ℚ) = .low ↔ (0.75 : ℚ) ≤ (0.8 : ℚ) ∧ (0.8 : ℚ) < (0.9 : ℚ))
    ∧ (statusFromRate (0.8 : ℚ) = .abnormal ↔ (0.8 : ℚ) < (0.75 : ℚ)) :=
  statusFromRate_spec.1 (0.8 : ℚ)

/-- Witness for C7 instantiating the amended blank-row characterization at the
counterexample payload. -/
theorem gasPayloadToRows_blank_spec_witness :
    (((gasPayloadToRows ⟨["A"], none, [⟨["", "X"], none, none, none⟩], none⟩
        ⟨false, "", []⟩).rows).length =
      ([⟨["", "X"], none, none, none⟩] : List GasRow).countP
        (fun r => !(isBlankRow ["A"] r)))
    ∧ (isBlankRow ["A"] ⟨["", "X"], none, none, none⟩ = true ↔
        ∀ i, i < (["A"] : List String).length →
          cleanForBlankCheck ((["", "X"] : List String).getD i "") = "") :=
  ⟨gasPayloadToRows_blank_spec.1 ⟨["A"], none, [⟨["", "X"], none, none, none⟩], none⟩
      ⟨false, "", []⟩,
   gasPayloadToRows_blank_spec.2 ["A"] ⟨["", "X"], none, none, none⟩⟩

end Coupang
